import Mathlib

/-!
Verification development for the RLBC daily generator
(`rlbc_daily_to_notion.py`), focused on the SwarmUI image-generation
negotiation logic: payload construction, LoRA/refiner retry ladders,
endpoint fallback, response decoding and image download.

Byte sequences are modelled as `List Nat` with every element below 256.
Library routines from Python (`base64.b64encode` / `base64.b64decode`,
string `split` / `join` / `lower`) are embedded by their documented
behaviour on the inputs the program produces.
-/

namespace RLBC

/-- A byte list: every element is below 256. -/
def isBytes (b : List Nat) : Prop := ∀ x ∈ b, x < 256

instance (b : List Nat) : Decidable (isBytes b) := by
  unfold isBytes; infer_instance

/-! ## Base64 (models Python `base64.b64encode` / `base64.b64decode`) -/

/-- The standard base64 alphabet, as used by Python `base64`. -/
def b64Alphabet : List Char :=
  "ABCDEFGHIJKLMNOPQRSTUVWXYZabcdefghijklmnopqrstuvwxyz0123456789+/".toList

/-- Character for a 6-bit value (callers always pass values below 64). -/
def b64Char (v : Nat) : Char := b64Alphabet.getD v '='

/-- Value of an alphabet character as six bits; `none` for non-alphabet characters. -/
def b64CharVal (c : Char) : Option Nat :=
  let i := b64Alphabet.indexOf c
  if i < 64 then some i else none

/-- Base64 encoding of a byte list, three bytes to four characters with
trailing `=` padding, as produced by Python `base64.b64encode`. -/
def b64encodeChars : List Nat → List Char
  | [] => []
  | [a] => [b64Char (a / 4), b64Char (a % 4 * 16), '=', '=']
  | [a, b] => [b64Char (a / 4), b64Char (a % 4 * 16 + b / 16), b64Char (b % 16 * 4), '=']
  | a :: b :: c :: rest =>
      b64Char (a / 4) :: b64Char (a % 4 * 16 + b / 16) ::
        b64Char (b % 16 * 4 + c / 64) :: b64Char (c % 64) :: b64encodeChars rest

/-- Base64 encoding as a string. -/
def b64encode (bs : List Nat) : String := String.mk (b64encodeChars bs)

/-- Decode groups of four base64 characters into bytes; padding is only
accepted on the final group.  Models the strict core of Python
`base64.b64decode` (after its discarding pass, see `b64decode`). -/
def b64decodeGroups : List Char → Option (List Nat)
  | [] => some []
  | w :: x :: y :: z :: rest =>
      if y = '=' ∧ z = '=' ∧ rest = [] then
        (b64CharVal w).bind fun a => (b64CharVal x).map fun b => [a * 4 + b / 16]
      else if z = '=' ∧ rest = [] then
        (b64CharVal w).bind fun a => (b64CharVal x).bind fun b =>
          (b64CharVal y).map fun c => [a * 4 + b / 16, b % 16 * 16 + c / 4]
      else
        (b64CharVal w).bind fun a => (b64CharVal x).bind fun b =>
          (b64CharVal y).bind fun c => (b64CharVal z).bind fun d =>
            (b64decodeGroups rest).map fun tail =>
              (a * 4 + b / 16) :: (b % 16 * 16 + c / 4) :: (c % 4 * 64 + d) :: tail
  | _ => none

/-- Keep only characters that take part in decoding: Python
`base64.b64decode` (with `validate=False`, its default) discards
characters outside the alphabet before decoding. -/
def b64Keep (c : Char) : Bool := b64Alphabet.contains c || c == '='

/-- Models Python `base64.b64decode` on well-formed input: discard
foreign characters, then decode four-character groups. -/
def b64decode (s : String) : Option (List Nat) :=
  b64decodeGroups (s.toList.filter b64Keep)

/-! ## String helpers (Python `in`, `str.lower`, `str.strip`, `str.split`) -/

/-- Does the pattern occur as a contiguous run inside the second list? -/
def hasSubstring (pat : List Char) : List Char → Bool
  | [] => pat.isEmpty
  | c :: t => pat.isPrefixOf (c :: t) || hasSubstring pat t

/-- Python `pat in s` substring test. -/
def containsStr (s pat : String) : Bool := hasSubstring pat.toList s.toList

/-- Python `str.lower` (ASCII case folding suffices for the error texts
and key names the source lowers). -/
def strLower (s : String) : String := String.mk (s.toList.map Char.toLower)

/-- Python `str.strip`. -/
def strTrim (s : String) : String :=
  String.mk (((s.toList.dropWhile Char.isWhitespace).reverse.dropWhile
    Char.isWhitespace).reverse)

/-- Python `str.startswith`. -/
def strStartsWith (s pre : String) : Bool := pre.toList.isPrefixOf s.toList

/-- Python `s.replace("\n", " ")` on the LoRA string. -/
def nlToSpace (s : String) : String :=
  String.mk (s.toList.map fun c => if c = Char.ofNat 10 then Char.ofNat 32 else c)

/-- Python `s.split(",", 1)[1]`: everything after the first comma, or
`none` when there is no comma (where the source raises `IndexError`,
caught by its enclosing handler). -/
def afterFirstComma : List Char → Option (List Char)
  | [] => none
  | c :: rest => if c = ',' then some rest else afterFirstComma rest

/-- The decoder branch for data-URL entries (`generate_image_on_legion`):
split at the first comma and base64-decode the remainder. -/
def dataUrlBranchDecode (s : String) : Option (List Nat) :=
  (afterFirstComma s.toList).bind fun r => b64decode (String.mk r)

/-! ## LoRA configuration (`build_weighted_loras`) -/

/-- Models `LEGION_LORA_WEIGHTS.get(name, 1.0)`: weight of a configured LoRA
name, defaulting to 1 when the name has no configured weight.  Python
floats are modelled as rationals. -/
def lookupWeight (ws : List (String × Rat)) (n : String) : Rat :=
  ((ws.find? (fun p => p.1 == n)).map Prod.snd).getD 1

/-- Rendering of a weight into a string, modelling Python `f"{w}"`; only
its presence after the colon matters to the properties proved here. -/
def ratStr (w : Rat) : String := toString w

/-- Models `build_weighted_loras`: emit the bare name when its weight is within
`1e-6` of 1, else `name:weight`; order follows the configured name list. -/
def buildWeightedLoras (loras : List String) (ws : List (String × Rat)) : List String :=
  loras.map fun name =>
    let w := lookupWeight ws name
    if |w - 1| < 1 / 1000000 then name else name ++ ":" ++ ratStr w

/-! ## JSON payloads as ordered key/value dictionaries -/

/-- A JSON-able payload value as used by the script. -/
inductive JVal
  | s (v : String)
  | n (v : Int)
  | q (v : Rat)
  | b (v : Bool)
  | ls (v : List String)
  | lq (v : List Rat)
  | mq (v : List (String × Rat))
  deriving DecidableEq, Repr

/-- An insertion-ordered dictionary, as Python `dict`. -/
abbrev Dict : Type := List (String × JVal)

/-- Python `d[k] = v`: replace in place when the key is present (keys are
unique in every payload built here), else append. -/
def dset (d : Dict) (k : String) (v : JVal) : Dict :=
  match d with
  | [] => [(k, v)]
  | p :: t => if p.1 == k then (k, v) :: t else p :: dset t k v

/-- Python `d.pop(k, None)`: drop the key if present. -/
def dpop (d : Dict) (k : String) : Dict := d.filter (fun p => p.1 != k)

/-- Python `d.get(k)`: value at a key. -/
def dget (d : Dict) (k : String) : Option JVal :=
  (d.find? (fun p => p.1 == k)).map Prod.snd

/-- Python `k in d`. -/
def dhas (d : Dict) (k : String) : Bool := d.any (fun p => p.1 == k)

/-- Python truthiness of a payload value (`or` chains in the source). -/
def jTruthy : JVal → Bool
  | .s v => v ≠ ""
  | .n v => v ≠ 0
  | .q v => v ≠ 0
  | .b v => v
  | .ls l => !l.isEmpty
  | .lq l => !l.isEmpty
  | .mq l => !l.isEmpty

/-- Python `str(v)` for the payload values that can reach the LoRA
splitting path; container rendering is elided (the `loras` keys only
ever hold name lists or strings in every payload this model builds). -/
def pyStr : JVal → String
  | .s v => v
  | .n v => toString v
  | .q v => toString v
  | .b v => if v then "True" else "False"
  | .ls _ => ""
  | .lq _ => ""
  | .mq _ => ""

/-! ## Generation configuration and payload construction -/

/-- The process-wide generation settings read from the environment
(`LEGION_*` values and the LoRA name/weight configuration). -/
structure GenConfig where
  serverUrl : String
  model : String
  width : Int
  height : Int
  steps : Int
  cfgScale : Rat
  refinerControlPercentage : Rat
  refinerMethod : String
  refinerUpscale : Int
  refinerUpscaleMethod : String
  refinerSteps : Int
  automaticVae : Bool
  loras : List String
  loraWeights : List (String × Rat)
  deriving DecidableEq

/-- Models `normalize_refiner_method`. -/
def normalizeRefinerMethod (m : String) : String :=
  if m = "" then m
  else
    let s := strLower m
    if containsStr s "post" && (containsStr s "apply" || containsStr s "postapply") then
      "PostApply"
    else if containsStr s "stepswap" then "StepSwap"
    else if containsStr s "noisy" then "StepSwapNoisy"
    else m

/-- Models `FALLBACK_REFINER_CANDIDATES`. -/
def fallbackRefinerCandidates (cfg : GenConfig) : List String :=
  ["pixel-lanczos", "latent-bicubic", "model-" ++ cfg.refinerUpscaleMethod]

/-- The fixed structural prompt template embedding the book title. -/
def basePrompt (bookTitle : String) : String :=
  "photorealistic book shelfie photograph, pristine white bookshelf in unnaturally perfect suburban home,\nsoft clinical lighting reminiscent of \"Get Out\" movie aesthetic, bright but cold and sterile,\nbook prominently displayed showing title: \"" ++ bookTitle ++ "\",\nsurrounding books with vague ominous self-help titles on spines,\nsubtle unsettling elements: too-perfect white flowers, wine glass with dark red wine, pearl necklace draped casually,\ncolor palette: whites creams pastels with occasional blood-red accents,\nStepford Wives meets modern book club, performative normalcy masking authoritarian impulses,\nshallow depth of field, book in sharp focus, background soft blur,\nslight tilted angle as if photographed casually by book club member,\nphotorealistic, 8k quality, professional photography, highly detailed"

/-- The negative prompt. -/
def negPrompt : String :=
  "blurry, low quality, cartoonish, anime, illustration, drawing,\nmessy, cluttered, dirty, damaged books, poor lighting, overexposed, underexposed,\ntext errors, misspelled words, distorted text, warped perspective, multiple books in focus"

/-- Models `loras_weights_list`: a parallel weights list matching the order of
the configured LoRA names (the source narrows whole floats to `int`,
which only affects JSON number rendering and is not modelled). -/
def lorasWeightsList (cfg : GenConfig) : List Rat :=
  cfg.loras.map (lookupWeight cfg.loraWeights)

/-- Models `loras_weights_string`: the weights joined by commas. -/
def lorasWeightsString (cfg : GenConfig) : String :=
  String.intercalate "," ((lorasWeightsList cfg).map ratStr)

/-- Models `loras_weights_map`: name-to-weight mapping in configured order. -/
def lorasWeightsMap (cfg : GenConfig) : List (String × Rat) :=
  cfg.loras.map fun name => (name, lookupWeight cfg.loraWeights name)

/-- The primary flat payload of `generate_image_on_legion` (Step 5). -/
def primaryPayload (cfg : GenConfig) (sessionId bookTitle : String) : Dict :=
  [("session_id", .s sessionId),
   ("prompt", .s (basePrompt bookTitle)),
   ("negativeprompt", .s negPrompt),
   ("model", .s cfg.model),
   ("width", .n cfg.width),
   ("height", .n cfg.height),
   ("steps", .n cfg.steps),
   ("cfgscale", .q cfg.cfgScale),
   ("sampler", .s "euler_ancestral"),
   ("scheduler", .s "normal"),
   ("images", .n 1),
   ("refiner_control_percentage", .q cfg.refinerControlPercentage),
   ("refiner_method", .s (normalizeRefinerMethod cfg.refinerMethod)),
   ("refiner_upscale", .n cfg.refinerUpscale),
   ("refiner_upscale_method", .s cfg.refinerUpscaleMethod),
   ("refiner_steps", .n cfg.refinerSteps),
   ("automatic_vae", .b cfg.automaticVae),
   ("LoRAs", .ls cfg.loras),
   ("loras", .ls cfg.loras),
   ("weights", .lq (lorasWeightsList cfg)),
   ("sigma_shift", .n 1),
   ("preferred_dtype", .s "default")]

/-- The fallback payload: every configured field, `cfgscale` renamed to
`cfg_scale`, sampler switched to `euler_a`, LoRA keys re-asserted and
legacy keys removed. -/
def fallbackPayload (cfg : GenConfig) (sessionId bookTitle : String) : Dict :=
  let p := primaryPayload cfg sessionId bookTitle
  let p := dpop p "cfgscale"
  let p := dset p "cfg_scale" (.q cfg.cfgScale)
  let p := dset p "sampler" (.s "euler_a")
  let p := dset p "LoRAs" (.ls cfg.loras)
  let p := dset p "loras" (.ls cfg.loras)
  let p := dset p "weights" (.lq (lorasWeightsList cfg))
  dpop (dpop (dpop p "loras_weights") "loras_string") "loras_weights_string"

/-- The two candidate service routes, in priority order. -/
def endpointsToTry (cfg : GenConfig) : List String :=
  [cfg.serverUrl ++ "/API/GenerateText2Image", cfg.serverUrl ++ "/Text2Image"]

/-! ## The backend as an oracle, and the network trace -/

/-- One entry of the response image list: a string, or a value of any
other type (which the decoder treats as an unknown format). -/
inductive ImgEntry
  | str (s : String)
  | other
  deriving DecidableEq, Repr

/-- Outcome of one HTTP POST: a raised transport error (connection
failure, timeout or other exception), or a response carrying its `ok`
flag, error text, and parsed image list (`none` models a JSON body that
fails to parse; a missing `images` key is `some []`). -/
inductive HttpOutcome
  | connError
  | resp (ok : Bool) (text : String) (images : Option (List ImgEntry))
  deriving DecidableEq, Repr

/-- Did the POST come back with a success status? -/
def isOk : HttpOutcome → Bool
  | .resp true _ _ => true
  | _ => false

/-- Response data carried through the negotiation (the `response`
variable of the source). -/
structure RespData where
  ok : Bool
  text : String
  images : Option (List ImgEntry)
  deriving DecidableEq, Repr

/-- The generation backend, as a deterministic oracle from endpoint and
payload to outcome. -/
abbrev Server : Type := String → Dict → HttpOutcome

/-- The asset store for GET downloads: URL to bytes, or failure. -/
abbrev Fetch : Type := String → Option (List Nat)

/-- A network request issued by the generator. -/
inductive NetEvent
  | post (endpoint : String) (payload : Dict)
  | get (url : String)
  deriving DecidableEq

/-! ## Error-text classification -/

/-- Error text implicating a missing or invalid model. -/
def modelSignal (low : String) : Bool :=
  containsStr low "invalid value for parameter model" ||
  containsStr low "invalid model value" ||
  containsStr low "no model input given" ||
  containsStr low "did your ui load properly"

/-- Error text implicating the LoRA field. -/
def loraSignal (low : String) : Bool :=
  containsStr low "lora" || containsStr low "loras" ||
  containsStr low "invalid value for parameter loras"

/-- Error text implicating the refiner field or an unrecognized
parameter. -/
def refinerSignal (low : String) : Bool :=
  containsStr low "refiner" || containsStr low "unrecognized" ||
  containsStr low "invalid value for parameter refiner model"

/-! ## Image download and response decoding -/

/-- Models `download_image_from_swarmui`: GET `serverUrl ++ "/" ++ path`; on
success return the bytes together with the URL used. -/
def downloadImageFromSwarmui (ftch : Fetch) (serverUrl path : String) :
    Option (List Nat × String) × List NetEvent :=
  let url := serverUrl ++ "/" ++ path
  match ftch url with
  | some bytes => (some (bytes, url), [.get url])
  | none => (none, [.get url])

/-- Decoding of an accepted response (`generate_image_on_legion`, final
block): `none` means fall through to the next endpoint (JSON parse
failure, or absent/empty image list); `some r` means return `r` to the
caller immediately. -/
def decodeImages (ftch : Fetch) (serverUrl : String)
    (images : Option (List ImgEntry)) :
    Option (Option (List Nat) × Option String) × List NetEvent :=
  match images with
  | none => (none, [])
  | some [] => (none, [])
  | some (first :: _) =>
    match first with
    | .str s =>
      if strStartsWith s "data:" then
        match dataUrlBranchDecode s with
        | some bytes => (some (some bytes, none), [])
        | none => (some (none, none), [])
      else if !containsStr s "/" && s.length > 100 then
        match b64decode s with
        | some bytes => (some (some bytes, none), [])
        | none => (some (none, none), [])
      else if containsStr s "View/" || strStartsWith s "/" then
        match downloadImageFromSwarmui ftch serverUrl s with
        | (some (bytes, url), evs) => (some (some bytes, some url), evs)
        | (none, evs) => (some (none, none), evs)
      else (some (none, none), [])
    | .other => (some (none, none), [])

/-! ## The negotiation ladders -/

/-- Send candidate payloads in order; stop at the first success.  Events
record every attempt, including ones raising transport errors. -/
def tryEach (srv : Server) (ep : String) :
    List Dict → Option (Dict × String × Option (List ImgEntry)) × List NetEvent
  | [] => (none, [])
  | p :: rest =>
    match srv ep p with
    | .resp true t imgs => (some (p, t, imgs), [.post ep p])
    | _ =>
      let r := tryEach srv ep rest
      (r.1, .post ep p :: r.2)

/-- Drop auxiliary LoRA keys (`loras_comma` / `loras_list`, compared
case-insensitively), as each LoRA retry does. -/
def dropAuxLoraKeys (d : Dict) : Dict :=
  d.filter fun p => (strLower p.1 != "loras_comma") && (strLower p.1 != "loras_list")

/-- One LoRA retry payload: prompt re-asserted, one key swapped in,
auxiliary keys dropped. -/
def payloadTryKey (payload : Dict) (bp k : String) (v : JVal) : Dict :=
  dropAuxLoraKeys (dset (dset payload "prompt" (.s bp)) k v)

/-- The eight weight-map key candidates, in source order. -/
def weightMapKeys : List String :=
  ["loras_weights_map", "loras_map", "lora_weights_map", "lora_map",
   "weights_map", "weightsMap", "LoRAWeightsMap", "loras_to_weights"]

/-- Payloads for the weight-map phase. -/
def weightMapPayloads (payload : Dict) (bp : String) (wmap : List (String × Rat)) :
    List Dict :=
  weightMapKeys.map fun wk => payloadTryKey payload bp wk (.mq wmap)

/-- The four alternative weight key names, in source order. -/
def weightKeyCandidates : List String :=
  ["loras_weights", "lora_weights", "weights", "LoRAWeights"]

/-- Payloads for the weight-key phase: each key first with the weights
list, then with the comma-joined weights string. -/
def weightKeyPayloads (payload : Dict) (bp : String) (wlist : List Rat)
    (wstr : String) : List Dict :=
  weightKeyCandidates.flatMap fun wk =>
    [payloadTryKey payload bp wk (.lq wlist), payloadTryKey payload bp wk (.s wstr)]

/-- Split a string on the LoRA delimiters (comma, pipes, semicolon,
whitespace), dropping empty pieces — equivalent, after the empty-piece
filter, to the source regex split. -/
def splitLoraDelims (s : String) : List String :=
  ((List.splitOnP
      (fun c => c = ',' || c = '|' || c = ';' || c.isWhitespace)
      (nlToSpace s).toList).map String.mk).filterMap fun t =>
    let u := strTrim t
    if u = "" then none else some u

/-- Models `orig = payload.get("loras") or payload.get("LoRAs") or ""`. -/
def origLoras (payload : Dict) : Option JVal :=
  match dget payload "loras" with
  | some v =>
    if jTruthy v then some v
    else
      match dget payload "LoRAs" with
      | some w => if jTruthy w then some w else none
      | none => none
  | none =>
    match dget payload "LoRAs" with
    | some w => if jTruthy w then some w else none
    | none => none

/-- The normalized LoRA name parts used to build the encoding variants. -/
def loraParts (payload : Dict) : List String :=
  match origLoras payload with
  | some (.ls l) =>
    l.filterMap fun s => let t := strTrim s; if t = "" then none else some t
  | some v => splitLoraDelims (pyStr v)
  | none => []

/-- The candidate LoRA field encodings, in the order the source tries
them: comma-joined, space-joined, single-pipe, triple-pipe, semicolon,
concatenated, then the plain list. -/
def loraVariants (parts : List String) : List JVal :=
  [.s (String.intercalate "," parts),
   .s (String.intercalate " " parts),
   .s (String.intercalate "|" parts),
   .s (String.intercalate "|||" parts),
   .s (String.intercalate ";" parts),
   .s (String.join parts),
   .ls parts]

/-- One LoRA-variant retry payload: both `loras` and `LoRAs` swapped. -/
def variantPayload (payload : Dict) (bp : String) (v : JVal) : Dict :=
  dropAuxLoraKeys (dset (dset (dset payload "prompt" (.s bp)) "loras" v) "LoRAs" v)

/-- Payloads of the variant phase, in source order. -/
def loraVariantPayloads (payload : Dict) (bp : String) : List Dict :=
  (loraVariants (loraParts payload)).map (variantPayload payload bp)

/-- The payload with every key naming LoRAs removed (case-insensitive
`"lora" in k.lower()`), prompt re-asserted. -/
def noLorasPayload (payload : Dict) (bp : String) : Dict :=
  dset (payload.filter fun p => !containsStr (strLower p.1) "lora") "prompt" (.s bp)

/-- The LoRA negotiation ladder (the `lora`-classified branch): weight
map keys, then alternative weight keys, then the encoding variants, each
phase stopping at its first accepted attempt; if everything is rejected,
one attempt without any LoRA field.  `none` aborts the endpoint. -/
def loraLadder (srv : Server) (ep : String) (payload : Dict) (bp : String)
    (wmap : List (String × Rat)) (wlist : List Rat) (wstr : String) :
    Option RespData × List NetEvent :=
  match tryEach srv ep (weightMapPayloads payload bp wmap) with
  | (some (_, t, imgs), evs) => (some ⟨true, t, imgs⟩, evs)
  | (none, evs1) =>
    match tryEach srv ep (weightKeyPayloads payload bp wlist wstr) with
    | (some (_, t, imgs), evs2) => (some ⟨true, t, imgs⟩, evs1 ++ evs2)
    | (none, evs2) =>
      match tryEach srv ep (loraVariantPayloads payload bp) with
      | (some (_, t, imgs), evs3) => (some ⟨true, t, imgs⟩, evs1 ++ evs2 ++ evs3)
      | (none, evs3) =>
        let pnl := noLorasPayload payload bp
        match srv ep pnl with
        | .resp true t imgs =>
          (some ⟨true, t, imgs⟩, evs1 ++ evs2 ++ evs3 ++ [.post ep pnl])
        | _ => (none, evs1 ++ evs2 ++ evs3 ++ [.post ep pnl])

/-- The payload with every `refiner`-prefixed key stripped. -/
def noRefinerPayload (payload : Dict) : Dict :=
  payload.filter fun p => !strStartsWith p.1 "refiner"

/-- One refiner-candidate payload: `refiner_model` dropped (never
present) and the upscale method replaced. -/
def candidatePayload (payload : Dict) (c : String) : Dict :=
  dset (dpop payload "refiner_model") "refiner_upscale_method" (.s c)

/-- The refiner negotiation ladder (the `refiner`-classified branch):
one attempt with refiner keys stripped, then — regardless of that
attempt's outcome — the fallback upscale-method candidates in order,
stopping at the first accepted candidate.  An accepted candidate
supersedes the stripped attempt; otherwise an accepted stripped attempt
stands; otherwise the prior response is kept. -/
def refinerLadder (srv : Server) (ep : String) (payload : Dict) (cfg : GenConfig)
    (r0 : RespData) : RespData × List NetEvent :=
  let pnr := noRefinerPayload payload
  let afterNr : RespData :=
    match srv ep pnr with
    | .resp true t imgs => ⟨true, t, imgs⟩
    | _ => r0
  match tryEach srv ep ((fallbackRefinerCandidates cfg).map (candidatePayload payload)) with
  | (some (_, t, imgs), evs) => (⟨true, t, imgs⟩, .post ep pnr :: evs)
  | (none, evs) => (afterNr, .post ep pnr :: evs)

/-- The model-classified retry: re-send the fallback payload once; the
response is adopted whether or not it succeeded, and its text is folded
into the classification text (on a transport error both are kept). -/
def modelRetry (srv : Server) (ep : String) (fallback : Dict) (r0 : RespData)
    (low0 : String) : RespData × String × List NetEvent :=
  match srv ep fallback with
  | .connError => (r0, low0, [.post ep fallback])
  | .resp ok t imgs => (⟨ok, t, imgs⟩, low0 ++ " " ++ strLower t, [.post ep fallback])

/-! ## The per-endpoint attempt and the endpoint loop -/

/-- Result of one endpoint iteration: return to the caller, or move on
to the next endpoint. -/
inductive EpResult
  | done (r : Option (List Nat) × Option String)
  | next
  deriving DecidableEq

/-- Final step of an endpoint iteration: decode when the retained
response is a success, else fall through to the next endpoint. -/
def finishResp (ftch : Fetch) (serverUrl : String) (r : RespData)
    (evs : List NetEvent) : EpResult × List NetEvent :=
  if r.ok then
    match decodeImages ftch serverUrl r.images with
    | (none, evd) => (.next, evs ++ evd)
    | (some res, evd) => (.done res, evs ++ evd)
  else (.next, evs)

/-- One iteration of the endpoint loop of `generate_image_on_legion`:
send the primary payload; classify a failure's error text and run the
model retry, the LoRA ladder and the refiner ladder as implicated; then
decode whatever success is retained. -/
def attemptEndpoint (srv : Server) (ftch : Fetch) (cfg : GenConfig)
    (payload fallback : Dict) (bp : String) (ep : String) :
    EpResult × List NetEvent :=
  match srv ep payload with
  | .connError => (.next, [.post ep payload])
  | .resp ok0 t0 imgs0 =>
    if ok0 then finishResp ftch cfg.serverUrl ⟨true, t0, imgs0⟩ [.post ep payload]
    else
      let low := strLower t0
      let m :=
        if modelSignal low then modelRetry srv ep fallback ⟨false, t0, imgs0⟩ low
        else (⟨false, t0, imgs0⟩, low, ([] : List NetEvent))
      let r1 := m.1
      let low1 := m.2.1
      let ev1 := m.2.2
      if loraSignal low1 then
        match loraLadder srv ep payload bp (lorasWeightsMap cfg)
            (lorasWeightsList cfg) (lorasWeightsString cfg) with
        | (none, ev2) => (.next, .post ep payload :: (ev1 ++ ev2))
        | (some r2, ev2) =>
          let rf :=
            if refinerSignal low1 then refinerLadder srv ep payload cfg r2
            else (r2, [])
          finishResp ftch cfg.serverUrl rf.1
            (.post ep payload :: (ev1 ++ ev2 ++ rf.2))
      else
        let rf :=
          if refinerSignal low1 then refinerLadder srv ep payload cfg r1
          else (r1, [])
        finishResp ftch cfg.serverUrl rf.1 (.post ep payload :: (ev1 ++ rf.2))

/-- The endpoint loop: run endpoints in priority order until one returns. -/
def runEndpoints (srv : Server) (ftch : Fetch) (cfg : GenConfig)
    (payload fallback : Dict) (bp : String) :
    List String → (Option (List Nat) × Option String) × List NetEvent
  | [] => ((none, none), [])
  | ep :: rest =>
    match attemptEndpoint srv ftch cfg payload fallback bp ep with
    | (.done r, evs) => (r, evs)
    | (.next, evs) =>
      let r := runEndpoints srv ftch cfg payload fallback bp rest
      (r.1, evs ++ r.2)

/-- Models `generate_image_on_legion`, after session acquisition (a failed
session request returns `(None, None)` before any generation POST):
returns the result pair together with the full network trace. -/
def generateImageOnLegion (srv : Server) (ftch : Fetch) (cfg : GenConfig)
    (sessionId bookTitle : String) :
    (Option (List Nat) × Option String) × List NetEvent :=
  runEndpoints srv ftch cfg (primaryPayload cfg sessionId bookTitle)
    (fallbackPayload cfg sessionId bookTitle) (basePrompt bookTitle)
    (endpointsToTry cfg)

/-! ## Concrete instances used by witnesses and counterexamples -/

/-- A small concrete configuration: two LoRAs `A` and `B` with weights
away from 1, refiner upscale method `U`, server address `S`. -/
def cfgC : GenConfig :=
  { serverUrl := "S", model := "m", width := 10, height := 12, steps := 4,
    cfgScale := 1, refinerControlPercentage := 1,
    refinerMethod := "Post-Apply (Normal)", refinerUpscale := 2,
    refinerUpscaleMethod := "U", refinerSteps := 7, automaticVae := true,
    loras := ["A", "B"], loraWeights := [("A", 2), ("B", 3)] }

/-- The primary payload of the concrete configuration. -/
def primaryC : Dict := primaryPayload cfgC "sid" "T"

/-- First endpoint of the concrete configuration. -/
def ep1C : String := cfgC.serverUrl ++ "/API/GenerateText2Image"

/-- Second endpoint of the concrete configuration. -/
def ep2C : String := cfgC.serverUrl ++ "/Text2Image"

/-- A data-URL image entry decoding to the bytes `[0, 0, 0]`. -/
def dataEntryC : ImgEntry := .str "data:image/png;base64,AAAA"

/-- A fetch oracle that always fails. -/
def ftchN : Fetch := fun _ => none

/-- A fetch oracle serving exactly the concrete pointer URL. -/
def ftchP : Fetch := fun u => if u = "S" ++ "/" ++ "View/img.png" then some [7, 7] else none

/-- A backend accepting everything with a data-URL image. -/
def srvOkData : Server := fun _ _ => .resp true "t" (some [dataEntryC])

/-- A backend accepting everything with a pointer-style image. -/
def srvPtr : Server := fun _ _ => .resp true "t" (some [.str "View/img.png"])

/-- A backend whose every request raises a connection error. -/
def srvConn : Server := fun _ _ => .connError

/-- A backend rejecting everything with unclassifiable error text. -/
def srvFail : Server := fun _ _ => .resp false "z" (some [])

/-- A backend rejecting every request with the LoRA complaint of the
specification scenario. -/
def srvRejLora : Server := fun _ _ =>
  .resp false "Invalid value for parameter LoRAs" (some [])

/-- A backend rejecting the primary payload with a LoRA complaint and
answering the first weight-map retry with a model complaint. -/
def srvC4 : Server := fun _ p =>
  if dhas p "loras_weights_map" then .resp false "invalid model value" (some [])
  else .resp false "lora" (some [])

/-- A backend rejecting any payload that carries refiner keys and
accepting refiner-free payloads with a data-URL image. -/
def srvC2 : Server := fun _ p =>
  if dhas p "refiner_steps" then .resp false "refiner rejected" (some [])
  else .resp true "t" (some [dataEntryC])

/-- A backend returning an unrecognizable image entry on the first
endpoint and a good data-URL image on the second. -/
def srvC6 : Server := fun ep _ =>
  if ep == ep2C then .resp true "t" (some [dataEntryC])
  else .resp true "t" (some [.str "abc"])

/-- A backend accepting everything with an empty image list. -/
def srvEmpty : Server := fun _ _ => .resp true "t" (some [])

/-- The values carried by the `loras` field across the POSTs of a trace,
in order (requests without the field contribute nothing). -/
def lorasFieldSeq (evs : List NetEvent) : List JVal :=
  evs.filterMap fun e =>
    match e with
    | .post _ p => dget p "loras"
    | .get _ => none

/-- The structural prompt for the concrete title. -/
def bpC : String := basePrompt "T"

/-- The fallback payload of the concrete configuration. -/
def fallbackC : Dict := fallbackPayload cfgC "sid" "T"

/-- The refiner-stripped concrete primary payload. -/
def pnrC : Dict := noRefinerPayload primaryC

/-- A backend rejecting everything with a model complaint. -/
def srvM : Server := fun _ _ => .resp false "no model input given" (some [])

/-- The payload of a POST event. -/
def postPayload : NetEvent → Option Dict
  | .post _ p => some p
  | .get _ => none

/-! ## Base64 round-trip lemmas -/

theorem b64CharVal_b64Char {v : Nat} (h : v < 64) :
    b64CharVal (b64Char v) = some v := by
  have H : ∀ v : Fin 64, b64CharVal (b64Char v.val) = some v.val := by decide
  exact H ⟨v, h⟩

theorem b64Char_keep {v : Nat} (h : v < 64) : b64Keep (b64Char v) = true := by
  have H : ∀ v : Fin 64, b64Keep (b64Char v.val) = true := by decide
  exact H ⟨v, h⟩

theorem b64Char_ne_pad {v : Nat} (h : v < 64) : b64Char v ≠ '=' := by
  have H : ∀ v : Fin 64, b64Char v.val ≠ '=' := by decide
  exact H ⟨v, h⟩

theorem b64Keep_pad : b64Keep '=' = true := by decide

theorem b64encodeChars_filter (bs : List Nat) (hb : isBytes bs) :
    (b64encodeChars bs).filter b64Keep = b64encodeChars bs := by
  induction bs using b64encodeChars.induct with
  | case1 => simp [b64encodeChars]
  | case2 a =>
      have h1 : a < 256 := hb a (by simp)
      simp [b64encodeChars, b64Char_keep (by omega : a / 4 < 64),
        b64Char_keep (by omega : a % 4 * 16 < 64), b64Keep_pad]
  | case3 a b =>
      have h1 : a < 256 := hb a (by simp)
      have h2 : b < 256 := hb b (by simp)
      simp [b64encodeChars, b64Char_keep (by omega : a / 4 < 64),
        b64Char_keep (by omega : a % 4 * 16 + b / 16 < 64),
        b64Char_keep (by omega : b % 16 * 4 < 64), b64Keep_pad]
  | case4 a b c rest ih =>
      have h1 : a < 256 := hb a (by simp)
      have h2 : b < 256 := hb b (by simp)
      have h3 : c < 256 := hb c (by simp)
      have hrest : isBytes rest := fun x hx => hb x (by simp [hx])
      simp [b64encodeChars, b64Char_keep (by omega : a / 4 < 64),
        b64Char_keep (by omega : a % 4 * 16 + b / 16 < 64),
        b64Char_keep (by omega : b % 16 * 4 + c / 64 < 64),
        b64Char_keep (by omega : c % 64 < 64), b64Keep_pad, ih hrest]

theorem b64decodeGroups_encode (bs : List Nat) (hb : isBytes bs) :
    b64decodeGroups (b64encodeChars bs) = some bs := by
  induction bs using b64encodeChars.induct with
  | case1 => simp [b64encodeChars, b64decodeGroups]
  | case2 a =>
      have h1 : a < 256 := hb a (by simp)
      simp [b64encodeChars, b64decodeGroups,
        b64CharVal_b64Char (by omega : a / 4 < 64),
        b64CharVal_b64Char (by omega : a % 4 * 16 < 64)]
      omega
  | case3 a b =>
      have h1 : a < 256 := hb a (by simp)
      have h2 : b < 256 := hb b (by simp)
      simp [b64encodeChars, b64decodeGroups,
        b64Char_ne_pad (by omega : b % 16 * 4 < 64),
        b64CharVal_b64Char (by omega : a / 4 < 64),
        b64CharVal_b64Char (by omega : a % 4 * 16 + b / 16 < 64),
        b64CharVal_b64Char (by omega : b % 16 * 4 < 64)]
      constructor <;> omega
  | case4 a b c rest ih =>
      have h1 : a < 256 := hb a (by simp)
      have h2 : b < 256 := hb b (by simp)
      have h3 : c < 256 := hb c (by simp)
      have hrest : isBytes rest := fun x hx => hb x (by simp [hx])
      have hy : b % 16 * 4 + c / 64 < 64 := by omega
      have hz : c % 64 < 64 := by omega
      rcases rest with _ | ⟨r, rest⟩
      · simp [b64encodeChars, b64decodeGroups, b64Char_ne_pad hy, b64Char_ne_pad hz,
          b64CharVal_b64Char (by omega : a / 4 < 64),
          b64CharVal_b64Char (by omega : a % 4 * 16 + b / 16 < 64),
          b64CharVal_b64Char hy, b64CharVal_b64Char hz]
        refine ⟨by omega, by omega, by omega⟩
      · have hne : b64encodeChars (r :: rest) ≠ [] := by
          rcases rest with _ | ⟨s, rest⟩
          · simp [b64encodeChars]
          · rcases rest with _ | ⟨t, rest⟩ <;> simp [b64encodeChars]
        simp only [b64encodeChars, b64decodeGroups]
        rw [if_neg (by simp [b64Char_ne_pad hy]), if_neg (by simp [hne])]
        simp [b64CharVal_b64Char (by omega : a / 4 < 64),
          b64CharVal_b64Char (by omega : a % 4 * 16 + b / 16 < 64),
          b64CharVal_b64Char hy, b64CharVal_b64Char hz,
          show b64encodeChars (r :: rest) = b64encodeChars (r :: rest) from rfl,
          ih hrest]
        refine ⟨by omega, by omega, by omega⟩

theorem b64decode_b64encode (bs : List Nat) (hb : isBytes bs) :
    b64decode (b64encode bs) = some bs := by
  unfold b64decode b64encode
  rw [show (String.mk (b64encodeChars bs)).toList = b64encodeChars bs from rfl]
  rw [b64encodeChars_filter bs hb, b64decodeGroups_encode bs hb]

/-! ## General lemmas about the attempt sequencer -/

theorem afterFirstComma_append {p : List Char} (hc : ',' ∉ p) (rest : List Char) :
    afterFirstComma (p ++ ',' :: rest) = some rest := by
  induction p with
  | nil => simp [afterFirstComma]
  | cons c t ih =>
      have hcne : c ≠ ',' := fun h => hc (by simp [h])
      have ht : ',' ∉ t := fun h => hc (by simp [h])
      simp [afterFirstComma, hcne, ih ht]

theorem tryEach_all_fail {srv : Server} {ep : String} {ps : List Dict}
    (h : ∀ p ∈ ps, isOk (srv ep p) = false) :
    tryEach srv ep ps = (none, ps.map (NetEvent.post ep)) := by
  induction ps with
  | nil => rfl
  | cons p rest ih =>
      have hrest : ∀ q ∈ rest, isOk (srv ep q) = false :=
        fun q hq => h q (by simp [hq])
      cases hh : srv ep p with
      | connError => simp [tryEach, hh, ih hrest]
      | resp ok t imgs =>
          cases ok with
          | true =>
              have := h p (by simp)
              rw [hh] at this
              simp [isOk] at this
          | false => simp [tryEach, hh, ih hrest]

theorem tryEach_split {srv : Server} {ep : String} (qs rs : List Dict) (p : Dict)
    {t : String} {imgs : Option (List ImgEntry)}
    (hfail : ∀ q ∈ qs, isOk (srv ep q) = false)
    (hok : srv ep p = .resp true t imgs) :
    tryEach srv ep (qs ++ p :: rs) =
      (some (p, t, imgs), qs.map (NetEvent.post ep) ++ [.post ep p]) := by
  induction qs with
  | nil => simp [tryEach, hok]
  | cons q qt ih =>
      have hq := hfail q (by simp)
      cases hh : srv ep q with
      | connError =>
          simp [tryEach, hh, ih (fun x hx => hfail x (by simp [hx]))]
      | resp ok tt ii =>
          cases ok with
          | true => rw [hh] at hq; simp [isOk] at hq
          | false =>
              simp [tryEach, hh, ih (fun x hx => hfail x (by simp [hx]))]

/-! ## Claim theorems -/

/-- C7: for every byte sequence, building a data-URL string (a `data:`
prefix, a comma, then the base64 encoding of the bytes) and passing it
through the decoder's data-URL branch (split at the first comma,
base64-decode the remainder) yields exactly the original bytes. -/
theorem c7_dataurl_roundtrip (pre : String) (b : List Nat)
    (hpre : strStartsWith pre "data:" = true) (hc : ',' ∉ pre.toList)
    (hb : isBytes b) :
    dataUrlBranchDecode (pre ++ "," ++ b64encode b) = some b := by
  clear hpre
  unfold dataUrlBranchDecode
  have hsplit : (pre ++ "," ++ b64encode b).toList =
      pre.toList ++ ',' :: (b64encode b).toList := by
    show (pre ++ "," ++ b64encode b).data = pre.data ++ ',' :: (b64encode b).data
    simp [String.data_append]
  rw [hsplit, afterFirstComma_append hc]
  exact b64decode_b64encode b hb

/-- Witness for C7 at a concrete prefix and byte list. -/
theorem c7_dataurl_roundtrip_witness :
    dataUrlBranchDecode ("data:image/png;base64" ++ "," ++ b64encode [137, 80, 78, 71]) =
      some [137, 80, 78, 71] :=
  c7_dataurl_roundtrip "data:image/png;base64" [137, 80, 78, 71]
    (by decide) (by decide) (by decide)

/-- C10: `build_weighted_loras` has one output per configured name in
the same order; a name whose weight is within `1e-6` of 1 (including the
default weight 1 for unconfigured names) is emitted bare, any other name
is emitted as `name:weight`. -/
theorem c10_buildWeightedLoras_spec (L : List String) (W : List (String × Rat)) :
    (buildWeightedLoras L W).length = L.length ∧
    (∀ i (hi : i < L.length) (hi2 : i < (buildWeightedLoras L W).length),
      (buildWeightedLoras L W).get ⟨i, hi2⟩ =
        (if |lookupWeight W (L.get ⟨i, hi⟩) - 1| < 1 / 1000000 then L.get ⟨i, hi⟩
         else L.get ⟨i, hi⟩ ++ ":" ++ ratStr (lookupWeight W (L.get ⟨i, hi⟩)))) ∧
    (∀ n, W.find? (fun p => p.1 == n) = none → lookupWeight W n = 1) := by
  refine ⟨by simp [buildWeightedLoras], ?_, ?_⟩
  · intro i hi hi2
    simp [buildWeightedLoras]
  · intro n h
    simp [lookupWeight, h]

/-- Witness for C10: weight 2 on `A` renders `A:2`, unconfigured `B`
stays bare. -/
theorem c10_buildWeightedLoras_spec_witness :
    (buildWeightedLoras ["A", "B"] [("A", 2)]).length = 2 ∧
    lookupWeight [("A", (2 : Rat))] "B" = 1 := by
  have h := c10_buildWeightedLoras_spec ["A", "B"] [("A", (2 : Rat))]
  refine ⟨by rw [h.1]; rfl, h.2.2 "B" (by decide)⟩

/-- C3: when the first POST of the primary payload to the first endpoint
comes back with a success status and its body decodes to a usable image,
the call returns that decoded image; the trace holds no POST beyond that
single one (no other endpoint, no variant payload). -/
theorem c3_first_success_no_extra_calls (srv : Server) (ftch : Fetch)
    (cfg : GenConfig) (sid title t : String) (imgs : Option (List ImgEntry))
    (bytes : List Nat) (orig : Option String) (evd : List NetEvent)
    (h1 : srv (cfg.serverUrl ++ "/API/GenerateText2Image")
        (primaryPayload cfg sid title) = .resp true t imgs)
    (h2 : decodeImages ftch cfg.serverUrl imgs = (some (some bytes, orig), evd)) :
    generateImageOnLegion srv ftch cfg sid title =
      ((some bytes, orig),
        .post (cfg.serverUrl ++ "/API/GenerateText2Image")
          (primaryPayload cfg sid title) :: evd) := by
  simp [generateImageOnLegion, endpointsToTry, runEndpoints, attemptEndpoint,
    h1, finishResp, h2]

/-- Witness for C3 with an accept-everything backend. -/
theorem c3_first_success_no_extra_calls_witness :
    generateImageOnLegion srvOkData ftchN cfgC "sid" "T" =
      ((some [0, 0, 0], none), [.post ep1C primaryC]) := by
  have h := c3_first_success_no_extra_calls srvOkData ftchN cfgC "sid" "T" "t"
    (some [dataEntryC]) [0, 0, 0] none [] rfl (by decide)
  simpa [ep1C, primaryC] using h

/-- C5: when every POST raises a connection error, the call returns the
terminal `(None, None)` and the trace holds exactly the two primary
POSTs — no classified retry request is ever issued. -/
theorem c5_all_conn_errors_terminal (srv : Server) (ftch : Fetch)
    (cfg : GenConfig) (sid title : String)
    (h : ∀ ep p, srv ep p = .connError) :
    generateImageOnLegion srv ftch cfg sid title =
      ((none, none),
        [.post (cfg.serverUrl ++ "/API/GenerateText2Image")
           (primaryPayload cfg sid title),
         .post (cfg.serverUrl ++ "/Text2Image")
           (primaryPayload cfg sid title)]) := by
  simp [generateImageOnLegion, endpointsToTry, runEndpoints, attemptEndpoint, h]

/-- Witness for C5 with the always-unreachable backend. -/
theorem c5_all_conn_errors_terminal_witness :
    generateImageOnLegion srvConn ftchN cfgC "sid" "T" =
      ((none, none), [.post ep1C primaryC, .post ep2C primaryC]) := by
  have h := c5_all_conn_errors_terminal srvConn ftchN cfgC "sid" "T"
    (fun _ _ => rfl)
  simpa [ep1C, ep2C, primaryC] using h

/-- C8: a pointer-style entry is fetched at exactly
`serverAddress ++ "/" ++ path`, and a successful download's origin URL
— also as handed back by the decoder — equals that concatenation. -/
theorem c8_pointer_fetch_exact (ftch : Fetch) (server path : String) :
    (downloadImageFromSwarmui ftch server path).2 =
      [.get (server ++ "/" ++ path)] ∧
    (∀ b u, (downloadImageFromSwarmui ftch server path).1 = some (b, u) →
      u = server ++ "/" ++ path ∧ ftch (server ++ "/" ++ path) = some b) ∧
    (∀ s rest bytes orig evs,
      strStartsWith s "data:" = false →
      (!containsStr s "/" && decide (s.length > 100)) = false →
      (containsStr s "View/" || strStartsWith s "/") = true →
      decodeImages ftch server (some (.str s :: rest)) =
        (some (some bytes, orig), evs) →
      orig = some (server ++ "/" ++ s) ∧ ftch (server ++ "/" ++ s) = some bytes) := by
  refine ⟨?_, ?_, ?_⟩
  · cases hf : ftch (server ++ "/" ++ path) <;>
      simp [downloadImageFromSwarmui, hf]
  · intro b u h
    cases hf : ftch (server ++ "/" ++ path) with
    | none => simp [downloadImageFromSwarmui, hf] at h
    | some bytes =>
        simp [downloadImageFromSwarmui, hf] at h
        exact ⟨h.2.symm, by simp [hf, h.1]⟩
  · intro s rest bytes orig evs h1 h2 h3 h
    cases hf : ftch (server ++ "/" ++ s) with
    | none =>
        simp [decodeImages, h1, h2, h3, downloadImageFromSwarmui, hf] at h
    | some b2 =>
        simp [decodeImages, h1, h2, h3, downloadImageFromSwarmui, hf] at h
        exact ⟨by simp [h.1.2], by simp [hf, h.1.1]⟩

/-- Witness for C8 at the concrete pointer entry and fetcher. -/
theorem c8_pointer_fetch_exact_witness :
    (downloadImageFromSwarmui ftchP "S" "View/img.png").1 =
      some ([7, 7], "S" ++ "/" ++ "View/img.png") ∧
    (downloadImageFromSwarmui ftchP "S" "View/img.png").2 =
      [.get ("S" ++ "/" ++ "View/img.png")] := by
  have h := c8_pointer_fetch_exact ftchP "S" "View/img.png"
  exact ⟨by decide, h.1⟩

/-- A decoded result carrying an origin URL can only come from the
pointer branch: the entry was pointer-style, the download succeeded at
the concatenated URL, and that URL is the origin. -/
theorem decodeImages_origin_some {ftch : Fetch} {server : String}
    {imgs : Option (List ImgEntry)} {res : Option (List Nat) × Option String}
    {evd : List NetEvent} (h : decodeImages ftch server imgs = (some res, evd))
    {u : String} (hu : res.2 = some u) :
    ∃ s rest bytes, imgs = some (.str s :: rest) ∧ res.1 = some bytes ∧
      (containsStr s "View/" || strStartsWith s "/") = true ∧
      ftch (server ++ "/" ++ s) = some bytes ∧ u = server ++ "/" ++ s := by
  match imgs with
  | none => simp [decodeImages] at h
  | some [] => simp [decodeImages] at h
  | some (.other :: rest) =>
      simp [decodeImages] at h
      rw [← h.1] at hu
      simp at hu
  | some (.str s :: rest) =>
      refine ⟨s, rest, ?_⟩
      by_cases hd : strStartsWith s "data:"
      · cases hdec : dataUrlBranchDecode s <;>
          · simp [decodeImages, hd, hdec] at h
            rw [← h.1] at hu
            simp at hu
      · by_cases hb : (!containsStr s "/" && decide (s.length > 100)) = true
        · cases hdec : b64decode s <;>
            · simp [decodeImages, hd, hb, hdec] at h
              rw [← h.1] at hu
              simp at hu
        · by_cases hv : (containsStr s "View/" || strStartsWith s "/") = true
          · cases hf : ftch (server ++ "/" ++ s) with
            | none =>
                simp [decodeImages, hd, hb, hv, downloadImageFromSwarmui, hf] at h
                rw [← h.1] at hu
                simp at hu
            | some b2 =>
                simp [decodeImages, hd, hb, hv, downloadImageFromSwarmui, hf] at h
                rw [← h.1] at hu
                simp at hu
                refine ⟨b2, rfl, ?_, hv, rfl, hu.symm⟩
                rw [← h.1]
          · simp [decodeImages, hd, hb, hv] at h
            rw [← h.1] at hu
            simp at hu

/-- A `done` outcome of the finishing step comes from a decoded success
of the retained response body. -/
theorem finishResp_done {ftch : Fetch} {url : String} {r : RespData}
    {evs evs2 : List NetEvent} {res : Option (List Nat) × Option String}
    (h : finishResp ftch url r evs = (.done res, evs2)) :
    ∃ evd, decodeImages ftch url r.images = (some res, evd) := by
  unfold finishResp at h
  by_cases hok : r.ok
  · rw [if_pos hok] at h
    cases hdec : decodeImages ftch url r.images with
    | mk o evd =>
        rw [hdec] at h
        cases o with
        | none => simp at h
        | some res2 =>
            simp at h
            exact ⟨evd, by rw [h.1]⟩
  · rw [if_neg hok] at h
    simp at h

/-- A `done` outcome of one endpoint iteration always goes through the
response decoder. -/
theorem attemptEndpoint_done {srv : Server} {ftch : Fetch} {cfg : GenConfig}
    {payload fallback : Dict} {bp ep : String}
    {res : Option (List Nat) × Option String} {evs : List NetEvent}
    (h : attemptEndpoint srv ftch cfg payload fallback bp ep = (.done res, evs)) :
    ∃ imgs evd, decodeImages ftch cfg.serverUrl imgs = (some res, evd) := by
  cases hh : srv ep payload with
  | connError => simp [attemptEndpoint, hh] at h
  | resp ok0 t0 imgs0 =>
      cases ok0 with
      | true =>
          simp only [attemptEndpoint, hh] at h
          simp at h
          obtain ⟨evd, hd⟩ := finishResp_done h
          exact ⟨imgs0, evd, hd⟩
      | false =>
          simp only [attemptEndpoint, hh] at h
          simp at h
          by_cases hl : loraSignal (if modelSignal (strLower t0) = true then
              modelRetry srv ep fallback ⟨false, t0, imgs0⟩ (strLower t0)
            else (⟨false, t0, imgs0⟩, strLower t0, [])).2.1 = true
          · rw [if_pos hl] at h
            cases hll : loraLadder srv ep payload bp (lorasWeightsMap cfg)
                (lorasWeightsList cfg) (lorasWeightsString cfg) with
            | mk o ev2 =>
                rw [hll] at h
                cases o with
                | none => simp at h
                | some r2 =>
                    simp only [] at h
                    obtain ⟨evd, hd⟩ := finishResp_done h
                    exact ⟨_, evd, hd⟩
          · rw [if_neg hl] at h
            obtain ⟨evd, hd⟩ := finishResp_done h
            exact ⟨_, evd, hd⟩

/-- A result of the endpoint loop that carries an origin URL went
through the decoder at some endpoint. -/
theorem runEndpoints_done {srv : Server} {ftch : Fetch} {cfg : GenConfig}
    {payload fallback : Dict} {bp : String} :
    ∀ (eps : List String) (u : String),
    (runEndpoints srv ftch cfg payload fallback bp eps).1.2 = some u →
    ∃ imgs evd, decodeImages ftch cfg.serverUrl imgs =
      (some (runEndpoints srv ftch cfg payload fallback bp eps).1, evd) := by
  intro eps
  induction eps with
  | nil => intro u h; simp [runEndpoints] at h
  | cons ep rest ih =>
      intro u h
      cases ha : attemptEndpoint srv ftch cfg payload fallback bp ep with
      | mk r evs =>
          cases r with
          | done rr =>
              simp only [runEndpoints, ha] at h ⊢
              exact attemptEndpoint_done ha
          | next =>
              simp only [runEndpoints, ha] at h ⊢
              exact ih u h

/-- C9: the returned origin URL is present exactly for a downloaded
pointer-style result — a decoded result with an origin URL comes from a
successful pointer download at the concatenated URL, inline entries
(data-URL or raw base64) always decode with no origin URL, at the
call level an origin URL implies the returned bytes were fetched from
that URL, and conversely a pointer-style entry whose download succeeds
decodes with that origin URL present. -/
theorem c9_origin_iff_pointer :
    (∀ (ftch : Fetch) (server : String) (imgs : Option (List ImgEntry))
        (bytes : List Nat) (u : String) (evs : List NetEvent),
      decodeImages ftch server imgs = (some (some bytes, some u), evs) →
      ∃ s rest, imgs = some (.str s :: rest) ∧
        (containsStr s "View/" || strStartsWith s "/") = true ∧
        ftch (server ++ "/" ++ s) = some bytes ∧ u = server ++ "/" ++ s) ∧
    (∀ (ftch : Fetch) (server s : String) (rest : List ImgEntry)
        (bytes : List Nat) (orig : Option String) (evs : List NetEvent),
      strStartsWith s "data:" = true ∨
        (strStartsWith s "data:" = false ∧
          (!containsStr s "/" && decide (s.length > 100)) = true) →
      decodeImages ftch server (some (.str s :: rest)) =
        (some (some bytes, orig), evs) →
      orig = none) ∧
    (∀ (srv : Server) (ftch : Fetch) (cfg : GenConfig) (sid title u : String),
      (generateImageOnLegion srv ftch cfg sid title).1.2 = some u →
      ∃ s b, ftch (cfg.serverUrl ++ "/" ++ s) = some b ∧
        u = cfg.serverUrl ++ "/" ++ s ∧
        (generateImageOnLegion srv ftch cfg sid title).1.1 = some b) ∧
    (∀ (ftch : Fetch) (server s : String) (rest : List ImgEntry)
        (bytes : List Nat),
      strStartsWith s "data:" = false →
      (!containsStr s "/" && decide (s.length > 100)) = false →
      (containsStr s "View/" || strStartsWith s "/") = true →
      ftch (server ++ "/" ++ s) = some bytes →
      decodeImages ftch server (some (.str s :: rest)) =
        (some (some bytes, some (server ++ "/" ++ s)),
          [.get (server ++ "/" ++ s)])) := by
  refine ⟨?_, ?_, ?_, ?_⟩
  · intro ftch server imgs bytes u evs h
    obtain ⟨s, rest, bytes2, himgs, hb, hv, hf, hu⟩ :=
      decodeImages_origin_some h (u := u) rfl
    simp at hb
    exact ⟨s, rest, himgs, hv, by rw [hf, hb], hu⟩
  · intro ftch server s rest bytes orig evs hbr h
    rcases hbr with hd | ⟨hd, hb⟩
    · cases hdec : dataUrlBranchDecode s with
      | none => simp [decodeImages, hd, hdec] at h
      | some b2 =>
          simp [decodeImages, hd, hdec] at h
          exact h.1.2.symm
    · cases hdec : b64decode s with
      | none => simp [decodeImages, hd, hb, hdec] at h
      | some b2 =>
          simp [decodeImages, hd, hb, hdec] at h
          exact h.1.2.symm
  · intro srv ftch cfg sid title u h
    unfold generateImageOnLegion at h ⊢
    obtain ⟨imgs, evd, hd⟩ := runEndpoints_done _ u h
    obtain ⟨s, rest, bytes, _, hb, _, hf, hu⟩ := decodeImages_origin_some hd h
    exact ⟨s, bytes, hf, hu, hb⟩
  · intro ftch server s rest bytes h1 h2 h3 hf
    simp [decodeImages, h1, h2, h3, downloadImageFromSwarmui, hf]

/-- Witness for C9 at the concrete pointer-serving backend. -/
theorem c9_origin_iff_pointer_witness :
    ∃ s b, ftchP (cfgC.serverUrl ++ "/" ++ s) = some b ∧
      "S" ++ "/" ++ "View/img.png" = cfgC.serverUrl ++ "/" ++ s ∧
      (generateImageOnLegion srvPtr ftchP cfgC "sid" "T").1.1 = some b :=
  c9_origin_iff_pointer.2.2.1 srvPtr ftchP cfgC "sid" "T"
    ("S" ++ "/" ++ "View/img.png") (by decide)

/-- The finishing step never disturbs the first two trace entries. -/
theorem finishResp_events_cons {ftch : Fetch} {url : String} {r : RespData}
    {a b : NetEvent} {l : List NetEvent} :
    ∃ rest, (finishResp ftch url r (a :: b :: l)).2 = a :: b :: rest := by
  unfold finishResp
  by_cases hok : r.ok
  · rw [if_pos hok]
    cases hdec : decodeImages ftch url r.images with
    | mk o evd => cases o <;> simp
  · rw [if_neg hok]
    exact ⟨l, rfl⟩

/-- C4 (amended): when the primary payload's response at an endpoint has
error text implicating a missing or invalid model, the very next request
is the fallback payload, which carries every configured field — model,
dimensions, steps, guidance scale, sampler, scheduler, the five refiner
settings, and the LoRA names and weights.  (Only the primary response's
text is classified; errors on later retry payloads are never
re-classified, see the counterexample.) -/
theorem c4_model_error_fallback_next (srv : Server) (ftch : Fetch)
    (cfg : GenConfig) (sid title ep t0 : String)
    (imgs0 : Option (List ImgEntry))
    (h1 : srv ep (primaryPayload cfg sid title) = .resp false t0 imgs0)
    (h2 : modelSignal (strLower t0) = true) :
    (∃ rest, (attemptEndpoint srv ftch cfg (primaryPayload cfg sid title)
        (fallbackPayload cfg sid title) (basePrompt title) ep).2 =
      .post ep (primaryPayload cfg sid title) ::
        .post ep (fallbackPayload cfg sid title) :: rest) ∧
    dget (fallbackPayload cfg sid title) "model" = some (.s cfg.model) ∧
    dget (fallbackPayload cfg sid title) "width" = some (.n cfg.width) ∧
    dget (fallbackPayload cfg sid title) "height" = some (.n cfg.height) ∧
    dget (fallbackPayload cfg sid title) "steps" = some (.n cfg.steps) ∧
    dget (fallbackPayload cfg sid title) "cfg_scale" = some (.q cfg.cfgScale) ∧
    dget (fallbackPayload cfg sid title) "sampler" = some (.s "euler_a") ∧
    dget (fallbackPayload cfg sid title) "scheduler" = some (.s "normal") ∧
    dget (fallbackPayload cfg sid title) "refiner_control_percentage" =
      some (.q cfg.refinerControlPercentage) ∧
    dget (fallbackPayload cfg sid title) "refiner_method" =
      some (.s (normalizeRefinerMethod cfg.refinerMethod)) ∧
    dget (fallbackPayload cfg sid title) "refiner_upscale" =
      some (.n cfg.refinerUpscale) ∧
    dget (fallbackPayload cfg sid title) "refiner_upscale_method" =
      some (.s cfg.refinerUpscaleMethod) ∧
    dget (fallbackPayload cfg sid title) "refiner_steps" =
      some (.n cfg.refinerSteps) ∧
    dget (fallbackPayload cfg sid title) "LoRAs" = some (.ls cfg.loras) ∧
    dget (fallbackPayload cfg sid title) "loras" = some (.ls cfg.loras) ∧
    dget (fallbackPayload cfg sid title) "weights" =
      some (.lq (lorasWeightsList cfg)) := by
  constructor
  case right => simp [fallbackPayload, primaryPayload, dpop, dset, dget]
  cases hf : srv ep (fallbackPayload cfg sid title) with
  | connError =>
      simp only [attemptEndpoint, h1]
      simp only [h2, modelRetry, hf, if_true, Bool.false_eq_true, if_false]
      split
      · split
        · simp
        · simpa using finishResp_events_cons
      · simpa using finishResp_events_cons
  | resp ok2 t2 i2 =>
      simp only [attemptEndpoint, h1]
      simp only [h2, modelRetry, hf, if_true, Bool.false_eq_true, if_false]
      split
      · split
        · simp
        · simpa using finishResp_events_cons
      · simpa using finishResp_events_cons

/-- Witness for C4 with a backend that reports a missing model. -/
theorem c4_model_error_fallback_next_witness :
    ((attemptEndpoint srvM ftchN cfgC primaryC fallbackC bpC ep1C).2.take 2) =
      [.post ep1C primaryC, .post ep1C fallbackC] := by
  obtain ⟨rest, h⟩ :=
    (c4_model_error_fallback_next srvM ftchN cfgC "sid" "T" ep1C
      "no model input given" (some []) rfl (by decide)).1
  rw [show (attemptEndpoint srvM ftchN cfgC primaryC fallbackC bpC ep1C).2 =
    (attemptEndpoint srvM ftchN cfgC (primaryPayload cfgC "sid" "T")
      (fallbackPayload cfgC "sid" "T") (basePrompt "T") ep1C).2 from rfl, h]
  rfl

/-- Counterexample to C4 as stated: the classification runs only on the
primary payload's response.  Under `srvC4` the primary fails with a LoRA
complaint; the first weight-map retry (the POST at index 1, carrying the
key `loras_weights_map`) is answered with the model-implicating text
`invalid model value`; yet the next request (index 2) is the second
weight-map retry — it carries `loras_map` and lacks the fallback
payload's `cfg_scale` key, so it is not the fallback payload. -/
theorem c4_counterexample :
    (∀ p, dhas p "loras_weights_map" = true →
      srvC4 ep1C p = .resp false "invalid model value" (some [])) ∧
    modelSignal (strLower "invalid model value") = true ∧
    (((generateImageOnLegion srvC4 ftchN cfgC "sid" "T").2[1]?).bind
        postPayload).map (fun p => dhas p "loras_weights_map") = some true ∧
    (((generateImageOnLegion srvC4 ftchN cfgC "sid" "T").2[2]?).bind
        postPayload).map (fun p => dhas p "loras_map") = some true ∧
    (((generateImageOnLegion srvC4 ftchN cfgC "sid" "T").2[2]?).bind
        postPayload).map (fun p => dhas p "cfg_scale") = some false ∧
    dhas fallbackC "cfg_scale" = true := by
  refine ⟨?_, by decide, by decide, by decide, by decide, by decide⟩
  intro p hp
  simp [srvC4, hp]

/-- C6 (amended): an accepted response without a usable image triggers
no variant search, but the two failure shapes end differently — a JSON
body that fails to parse, or an absent/empty image list, is terminal for
that endpoint only (the loop moves to the next endpoint), while a first
entry matching none of the recognized shapes aborts the entire call with
`(None, None)`, skipping any remaining endpoint. -/
theorem c6_accepted_without_image (srv : Server) (ftch : Fetch)
    (cfg : GenConfig) (payload fallback : Dict) (bp ep : String) :
    (∀ t, srv ep payload = .resp true t none →
      attemptEndpoint srv ftch cfg payload fallback bp ep =
        (.next, [.post ep payload])) ∧
    (∀ t, srv ep payload = .resp true t (some []) →
      attemptEndpoint srv ftch cfg payload fallback bp ep =
        (.next, [.post ep payload])) ∧
    (∀ t s rest, srv ep payload = .resp true t (some (.str s :: rest)) →
      strStartsWith s "data:" = false →
      (!containsStr s "/" && decide (s.length > 100)) = false →
      (containsStr s "View/" || strStartsWith s "/") = false →
      attemptEndpoint srv ftch cfg payload fallback bp ep =
        (.done (none, none), [.post ep payload])) ∧
    (∀ t rest, srv ep payload = .resp true t (some (.other :: rest)) →
      attemptEndpoint srv ftch cfg payload fallback bp ep =
        (.done (none, none), [.post ep payload])) ∧
    (∀ (sid title t s : String) (rest : List ImgEntry),
      srv (cfg.serverUrl ++ "/API/GenerateText2Image")
          (primaryPayload cfg sid title) = .resp true t (some (.str s :: rest)) →
      strStartsWith s "data:" = false →
      (!containsStr s "/" && decide (s.length > 100)) = false →
      (containsStr s "View/" || strStartsWith s "/") = false →
      generateImageOnLegion srv ftch cfg sid title =
        ((none, none),
          [.post (cfg.serverUrl ++ "/API/GenerateText2Image")
            (primaryPayload cfg sid title)])) := by
  refine ⟨?_, ?_, ?_, ?_, ?_⟩
  · intro t h
    simp [attemptEndpoint, h, finishResp, decodeImages]
  · intro t h
    simp [attemptEndpoint, h, finishResp, decodeImages]
  · intro t s rest h h1 h2 h3
    simp [attemptEndpoint, h, finishResp, decodeImages, h1, h2, h3]
  · intro t rest h
    simp [attemptEndpoint, h, finishResp, decodeImages]
  · intro sid title t s rest h h1 h2 h3
    simp [generateImageOnLegion, endpointsToTry, runEndpoints, attemptEndpoint,
      h, finishResp, decodeImages, h1, h2, h3]

/-- Witness for C6 at concrete backends: an empty image list moves on to
the next endpoint; an unrecognized entry ends the whole call. -/
theorem c6_accepted_without_image_witness :
    attemptEndpoint srvEmpty ftchN cfgC primaryC fallbackC bpC ep1C =
      (.next, [.post ep1C primaryC]) ∧
    generateImageOnLegion srvC6 ftchN cfgC "sid" "T" =
      ((none, none), [.post ep1C primaryC]) := by
  constructor
  · exact (c6_accepted_without_image srvEmpty ftchN cfgC primaryC fallbackC
      bpC ep1C).2.1 "t" rfl
  · have h := (c6_accepted_without_image srvC6 ftchN cfgC primaryC fallbackC
      bpC ep1C).2.2.2.2 "sid" "T" "t" "abc" [] rfl (by decide) (by decide)
      (by decide)
    simpa [ep1C, primaryC] using h

set_option maxRecDepth 10000 in
/-- Counterexample to C6 as stated: the unrecognized-entry failure is
not terminal for that endpoint only.  Under `srvC6` the first endpoint
answers with the unusable entry `abc` while the second endpoint would
deliver a decodable image, yet the call returns `(None, None)` after a
single POST — the second endpoint is never contacted. -/
theorem c6_counterexample :
    generateImageOnLegion srvC6 ftchN cfgC "sid" "T" =
      ((none, none), [.post ep1C primaryC]) ∧
    (attemptEndpoint srvC6 ftchN cfgC primaryC fallbackC bpC ep2C).1 =
      .done (some [0, 0, 0], none) := by
  constructor
  · decide
  · decide

/-- C2 (amended): the refiner-classified retry first sends the payload
with every refiner-prefixed field stripped; then — regardless of that
attempt's outcome — it sends the payloads with the upscale method
replaced by each entry of `FALLBACK_REFINER_CANDIDATES` in order,
stopping the candidate sequence at the first accepted candidate.  An
accepted candidate's response supersedes everything; otherwise an
accepted stripped attempt stands; otherwise the prior response is kept. -/
theorem c2_refiner_ladder (srv : Server) (ep : String) (payload : Dict)
    (cfg : GenConfig) (r0 : RespData) :
    ((refinerLadder srv ep payload cfg r0).2 =
      .post ep (noRefinerPayload payload) ::
        (tryEach srv ep
          ((fallbackRefinerCandidates cfg).map (candidatePayload payload))).2) ∧
    (∀ qs p rs (t : String) (imgs : Option (List ImgEntry)),
      (fallbackRefinerCandidates cfg).map (candidatePayload payload) =
        qs ++ p :: rs →
      (∀ q ∈ qs, isOk (srv ep q) = false) →
      srv ep p = .resp true t imgs →
      refinerLadder srv ep payload cfg r0 =
        (⟨true, t, imgs⟩,
          .post ep (noRefinerPayload payload) ::
            (qs.map (NetEvent.post ep) ++ [.post ep p]))) ∧
    ((∀ q ∈ (fallbackRefinerCandidates cfg).map (candidatePayload payload),
        isOk (srv ep q) = false) →
      (refinerLadder srv ep payload cfg r0).2 =
        .post ep (noRefinerPayload payload) ::
          ((fallbackRefinerCandidates cfg).map (candidatePayload payload)).map
            (NetEvent.post ep) ∧
      (∀ (t : String) (imgs : Option (List ImgEntry)),
        srv ep (noRefinerPayload payload) = .resp true t imgs →
        (refinerLadder srv ep payload cfg r0).1 = ⟨true, t, imgs⟩) ∧
      (isOk (srv ep (noRefinerPayload payload)) = false →
        (refinerLadder srv ep payload cfg r0).1 = r0)) := by
  refine ⟨?_, ?_, ?_⟩
  · cases ht : tryEach srv ep
        ((fallbackRefinerCandidates cfg).map (candidatePayload payload)) with
    | mk o evs =>
        cases o with
        | none => simp [refinerLadder, ht]
        | some acc => simp [refinerLadder, ht]
  · intro qs p rs t imgs hsplit hfail hok
    rw [refinerLadder.eq_def, hsplit, tryEach_split qs rs p hfail hok]
  · intro hfail
    have ht := tryEach_all_fail hfail
    refine ⟨by simp [refinerLadder, ht], ?_, ?_⟩
    · intro t imgs hok
      simp [refinerLadder, ht, hok]
    · intro hnok
      cases hh : srv ep (noRefinerPayload payload) with
      | connError => simp [refinerLadder, ht, hh]
      | resp ok t imgs =>
          cases ok with
          | true => rw [hh] at hnok; simp [isOk] at hnok
          | false => simp [refinerLadder, ht, hh]

/-- Witness for C2 with the refiner-rejecting backend: stripped attempt
first, then all three candidates, response taken from the stripped
attempt. -/
theorem c2_refiner_ladder_witness :
    (refinerLadder srvC2 ep1C primaryC cfgC ⟨false, "e", some []⟩).2 =
      .post ep1C pnrC ::
        ((fallbackRefinerCandidates cfgC).map (candidatePayload primaryC)).map
          (NetEvent.post ep1C) ∧
    (refinerLadder srvC2 ep1C primaryC cfgC ⟨false, "e", some []⟩).1 =
      ⟨true, "t", some [dataEntryC]⟩ := by
  have h := c2_refiner_ladder srvC2 ep1C primaryC cfgC ⟨false, "e", some []⟩
  have hfail : ∀ q ∈ (fallbackRefinerCandidates cfgC).map
      (candidatePayload primaryC), isOk (srvC2 ep1C q) = false := by decide
  have h3 := h.2.2 hfail
  exact ⟨by rw [show pnrC = noRefinerPayload primaryC from rfl]; exact h3.1,
    h3.2.1 "t" (some [dataEntryC]) (by decide)⟩

set_option maxRecDepth 40000 in
/-- Counterexample to C2 as stated: the candidate retries are not gated
on the stripped retry failing.  Under `srvC2` the stripped payload is
accepted, yet all three upscale-method candidate requests are still
sent afterwards (and rejected); the call then uses the stripped
attempt's image. -/
theorem c2_counterexample :
    isOk (srvC2 ep1C pnrC) = true ∧
    generateImageOnLegion srvC2 ftchN cfgC "sid" "T" =
      ((some [0, 0, 0], none),
        [.post ep1C primaryC, .post ep1C pnrC,
         .post ep1C (candidatePayload primaryC "pixel-lanczos"),
         .post ep1C (candidatePayload primaryC "latent-bicubic"),
         .post ep1C (candidatePayload primaryC ("model-" ++ cfgC.refinerUpscaleMethod))]) := by
  constructor
  · decide
  · decide

/-- C1 (amended): after the weight-map and weight-key phases have been
rejected, the LoRA-classified retry tries the encoding variants in the
order comma-joined, space-joined, single-pipe, triple-pipe, semicolon,
concatenated, and finally the plain list of names — all built from the
bare names, without weights — stopping at the first accepted encoding;
if every variant is rejected it sends exactly one payload with all
LoRA fields removed before giving up (or adopting that payload's
accepted response). -/
theorem c1_lora_ladder (srv : Server) (ep : String) (payload : Dict)
    (bp : String) (wmap : List (String × Rat)) (wlist : List Rat) (wstr : String)
    (hwm : ∀ q ∈ weightMapPayloads payload bp wmap, isOk (srv ep q) = false)
    (hwk : ∀ q ∈ weightKeyPayloads payload bp wlist wstr,
      isOk (srv ep q) = false) :
    (loraVariants (loraParts payload) =
      [.s (String.intercalate "," (loraParts payload)),
       .s (String.intercalate " " (loraParts payload)),
       .s (String.intercalate "|" (loraParts payload)),
       .s (String.intercalate "|||" (loraParts payload)),
       .s (String.intercalate ";" (loraParts payload)),
       .s (String.join (loraParts payload)),
       .ls (loraParts payload)]) ∧
    (∀ qs p rs (t : String) (imgs : Option (List ImgEntry)),
      loraVariantPayloads payload bp = qs ++ p :: rs →
      (∀ q ∈ qs, isOk (srv ep q) = false) →
      srv ep p = .resp true t imgs →
      loraLadder srv ep payload bp wmap wlist wstr =
        (some ⟨true, t, imgs⟩,
          (weightMapPayloads payload bp wmap).map (NetEvent.post ep) ++
            (weightKeyPayloads payload bp wlist wstr).map (NetEvent.post ep) ++
            (qs.map (NetEvent.post ep) ++ [.post ep p]))) ∧
    ((∀ q ∈ loraVariantPayloads payload bp, isOk (srv ep q) = false) →
      (loraLadder srv ep payload bp wmap wlist wstr).2 =
        (weightMapPayloads payload bp wmap).map (NetEvent.post ep) ++
          (weightKeyPayloads payload bp wlist wstr).map (NetEvent.post ep) ++
          (loraVariantPayloads payload bp).map (NetEvent.post ep) ++
          [.post ep (noLorasPayload payload bp)] ∧
      (isOk (srv ep (noLorasPayload payload bp)) = false →
        (loraLadder srv ep payload bp wmap wlist wstr).1 = none) ∧
      (∀ (t : String) (imgs : Option (List ImgEntry)),
        srv ep (noLorasPayload payload bp) = .resp true t imgs →
        (loraLadder srv ep payload bp wmap wlist wstr).1 =
          some ⟨true, t, imgs⟩)) := by
  refine ⟨rfl, ?_, ?_⟩
  · intro qs p rs t imgs hsplit hfail hok
    rw [loraLadder.eq_def, tryEach_all_fail hwm, tryEach_all_fail hwk, hsplit,
      tryEach_split qs rs p hfail hok]
  · intro hvars
    have ht := tryEach_all_fail hvars
    refine ⟨?_, ?_, ?_⟩
    · cases hh : srv ep (noLorasPayload payload bp) with
      | connError =>
          simp [loraLadder, tryEach_all_fail hwm, tryEach_all_fail hwk, ht, hh]
      | resp ok t imgs =>
          cases ok <;>
            simp [loraLadder, tryEach_all_fail hwm, tryEach_all_fail hwk, ht, hh]
    · intro hnok
      cases hh : srv ep (noLorasPayload payload bp) with
      | connError =>
          simp [loraLadder, tryEach_all_fail hwm, tryEach_all_fail hwk, ht, hh]
      | resp ok t imgs =>
          cases ok with
          | true => rw [hh] at hnok; simp [isOk] at hnok
          | false =>
              simp [loraLadder, tryEach_all_fail hwm, tryEach_all_fail hwk,
                ht, hh]
    · intro t imgs hok
      simp [loraLadder, tryEach_all_fail hwm, tryEach_all_fail hwk, ht, hok]

/-- Witness for C1 with the reject-everything backend: the ladder ends
with the LoRA-free attempt and aborts the endpoint. -/
theorem c1_lora_ladder_witness :
    (loraLadder srvFail ep1C primaryC bpC (lorasWeightsMap cfgC)
      (lorasWeightsList cfgC) (lorasWeightsString cfgC)).1 = none := by
  have h := c1_lora_ladder srvFail ep1C primaryC bpC (lorasWeightsMap cfgC)
    (lorasWeightsList cfgC) (lorasWeightsString cfgC)
    (fun q hq => rfl) (fun q hq => rfl)
  exact (h.2.2 (fun q hq => rfl)).2.1 rfl

/-- Counterexample to C1 as stated.  In the specification scenario (the
backend rejects the primary payload with `Invalid value for parameter
LoRAs` and keeps rejecting), the `loras` field values sent across the
whole call are: seventeen attempts carrying the untouched name list
(primary, model-free weight-map and weight-key phases), then the string
variants comma-joined, space-joined, single-pipe, triple-pipe,
semicolon, concatenated, and the list form last — per endpoint.  The
first alternative encoding is the comma-joined bare-name string, not
the list-of-names form, the list form comes last instead of first, and
no attempted value contains a colon, so the comma-joined
`name:weight` string of the claim is never offered. -/
theorem c1_counterexample :
    lorasFieldSeq (generateImageOnLegion srvRejLora ftchN cfgC "sid" "T").2 =
      (List.replicate 17 (JVal.ls ["A", "B"]) ++
        [.s "A,B", .s "A B", .s "A|B", .s "A|||B", .s "A;B", .s "AB",
         .ls ["A", "B"]]) ++
      (List.replicate 17 (JVal.ls ["A", "B"]) ++
        [.s "A,B", .s "A B", .s "A|B", .s "A|||B", .s "A;B", .s "AB",
         .ls ["A", "B"]]) ∧
    ((lorasFieldSeq
        (generateImageOnLegion srvRejLora ftchN cfgC "sid" "T").2).all
      (fun v =>
        match v with
        | JVal.s str => !containsStr str ":"
        | _ => true)) = true := by
  have h1 : lorasFieldSeq
      (generateImageOnLegion srvRejLora ftchN cfgC "sid" "T").2 =
      (List.replicate 17 (JVal.ls ["A", "B"]) ++
        [.s "A,B", .s "A B", .s "A|B", .s "A|||B", .s "A;B", .s "AB",
         .ls ["A", "B"]]) ++
      (List.replicate 17 (JVal.ls ["A", "B"]) ++
        [.s "A,B", .s "A B", .s "A|B", .s "A|||B", .s "A;B", .s "AB",
         .ls ["A", "B"]]) := by decide
  refine ⟨h1, ?_⟩
  rw [h1]
  decide

end RLBC
